import Mathlib

/-!
Verification development for the leadspree-licenser repository.

The only externally-facing logic is the license verification endpoint; the
repository carries three implementations of it plus the dashboard forms that
write license rows:

* `functions/verify-license/index.mjs` (Appwrite, current) — embedded below as
  `handlerMjs`;
* `supabase/functions/verify-license/index.ts` (legacy Supabase) — embedded as
  `handlerSupabase`;
* the hardened Supabase variant kept next to `scripts/setup-appwrite.mjs`
  (the one with `normalizeKey`/`validateAndNormalizeInput`) — embedded as
  `hardenedHandler`;
* the dashboard license-write paths in `AdminLicenseGeneration.tsx`,
  `LicenseGeneration.tsx`, `AdminIssuedLicensesPage.tsx`,
  `ResellerIssuedLicensesPage.tsx` — embedded in the `isActiveFromEndDate`
  section.

Timestamps (`Date.now()`) are modeled as `Int` milliseconds.  Response bodies
are modeled as a small JSON value type so that statements about which keys a
payload does or does not contain are statements about the constructed value,
not about a Lean record type.
-/

namespace Licenser

/-! ### A small JSON value model -/

/-- JSON values as built by the handlers: strings, booleans, `null`, and
objects (ordered field lists, as produced by the object literals in the
source). -/
inductive JVal where
  | s (v : String)
  | b (v : Bool)
  | null
  | o (fields : List (String × JVal))

mutual

/-- Does a JSON value contain field `k` anywhere, any nesting depth? -/
def JVal.hasKeyDeep (k : String) : JVal → Bool
  | .s _ => false
  | .b _ => false
  | .null => false
  | .o fields => JVal.hasKeyFieldsDeep k fields

/-- Does a field list contain key `k`, directly or in a nested object? -/
def JVal.hasKeyFieldsDeep (k : String) : List (String × JVal) → Bool
  | [] => false
  | (k', v) :: rest =>
    k' == k || JVal.hasKeyDeep k v || JVal.hasKeyFieldsDeep k rest

end

/-- Top-level keys of a JSON object (empty for non-objects). -/
def JVal.keys : JVal → List String
  | .o fields => fields.map Prod.fst
  | _ => []

/-- Top-level field access on a JSON object. -/
def JVal.getField (k : String) : JVal → Option JVal
  | .o fields => (fields.find? (fun p => p.1 == k)).map Prod.snd
  | _ => none

/-- The boolean stored at top-level key `k`, if any. -/
def JVal.boolField (v : JVal) (k : String) : Option Bool :=
  match v.getField k with
  | some (.b x) => some x
  | _ => none

/-- The string stored at top-level key `k`, if any. -/
def JVal.strField (v : JVal) (k : String) : Option String :=
  match v.getField k with
  | some (.s x) => some x
  | _ => none

/-! ### Data model (api_keys / licenses / software rows) -/

/-- A row of the `api_keys` table. -/
structure ApiKeyRow where
  id : String
  key_string : String
  is_active : Bool
deriving DecidableEq

/-- A row of the `software` table (the fields the endpoint exposes). -/
structure SoftwareRow where
  id : String
  name : String
  version : String
  type : String
deriving DecidableEq

/-- A row of the `licenses` table.  Buyer phone, amount, pay mode and the
reseller identity are present on the row (they exist in the schema); whether
they leak into responses is exactly what claim C1 is about. -/
structure LicenseRow where
  license_key : String
  software_id : String
  buyer_name : String
  buyer_email : String
  buyer_phone : Option String
  start_date : String
  end_date : String
  created_at : String
  amount : Option String
  pay_mode : Option String
  reseller_id : Option String
  is_active : Bool
deriving DecidableEq

/-- The database visible to the verification endpoint. -/
structure Db where
  api_keys : List ApiKeyRow
  licenses : List LicenseRow
  software : List SoftwareRow

/-- `api_keys` lookup: `key_string` equal and `is_active = true`, limit 1. -/
def findApiKey (db : Db) (key : String) : Option ApiKeyRow :=
  db.api_keys.find? (fun r => r.key_string == key && r.is_active)

/-- `licenses` lookup: `license_key` equal, `is_active = true`, optionally
filtered by `software_id`, limit 1. -/
def findLicense (db : Db) (key : String) (softwareFilter : Option String) :
    Option LicenseRow :=
  db.licenses.find? (fun r =>
    r.license_key == key && r.is_active &&
    (match softwareFilter with
     | none => true
     | some sid => r.software_id == sid))

/-- `software` fetch by document id. -/
def findSoftware (db : Db) (id : String) : Option SoftwareRow :=
  db.software.find? (fun r => r.id == id)

/-! ### The in-process rate limiter (identical in all variants) -/

/-- One entry of `rateLimitMap`. -/
structure RateEntry where
  count : Nat
  resetTime : Int
deriving DecidableEq

/-- `rateLimitMap`, modeled as a function from client IP to entry. -/
abbrev RateMap := String → Option RateEntry

def RATE_LIMIT_WINDOW_MS : Int := 60000

def MAX_REQUESTS_PER_WINDOW : Nat := 30

/-- `isRateLimited`: returns the decision together with the updated map
(the JS function mutates the shared map). -/
def isRateLimited (now : Int) (ip : String) (m : RateMap) : Bool × RateMap :=
  match m ip with
  | none =>
    (false, fun k => if k = ip then some ⟨1, now + RATE_LIMIT_WINDOW_MS⟩ else m k)
  | some e =>
    if now > e.resetTime then
      (false, fun k => if k = ip then some ⟨1, now + RATE_LIMIT_WINDOW_MS⟩ else m k)
    else
      (decide (e.count + 1 > MAX_REQUESTS_PER_WINDOW),
       fun k => if k = ip then some ⟨e.count + 1, e.resetTime⟩ else m k)

/-- The entry stored for `ip` after one `isRateLimited` call, as a function of
the entry before the call. -/
def rlNext (now : Int) : Option RateEntry → RateEntry
  | none => ⟨1, now + RATE_LIMIT_WINDOW_MS⟩
  | some e =>
    if now > e.resetTime then ⟨1, now + RATE_LIMIT_WINDOW_MS⟩
    else ⟨e.count + 1, e.resetTime⟩

/-! ### Requests -/

/-- A parsed request body: the three JSON fields the endpoint reads.  A field
that is absent from the JSON is `none`. -/
structure Body where
  api_key : Option String
  license_key : Option String
  software_id : Option String
deriving DecidableEq

/-- The raw request body: `malformed` models text that `JSON.parse` rejects;
`parsed none` models JSON whose top level is not an object (e.g. `null`);
`parsed (some b)` is a JSON object. -/
inductive RawBody where
  | malformed
  | parsed (b : Option Body)
deriving DecidableEq

/-- An HTTP request as the handlers see it. -/
structure Req where
  method : String
  headers : List (String × String)
  body : RawBody

/-- Case-exact header lookup (the runtimes hand the handlers lower-cased
header maps). -/
def headerLookup (headers : List (String × String)) (k : String) : Option String :=
  (headers.find? (fun p => p.1 == k)).map Prod.snd

/-- JS `a || b || ...` over strings: first non-empty candidate, else the
default. -/
def firstNonEmpty : List String → String → String
  | [], d => d
  | s :: rest, d => if s = "" then firstNonEmpty rest d else s

/-- Client IP derivation of `index.mjs`:
`x-forwarded-for` first entry trimmed, else `cf-connecting-ip`, else
`x-appwrite-client-ip`, else `"unknown"`. -/
def getIp (headers : List (String × String)) : String :=
  let fwd : String :=
    match headerLookup headers "x-forwarded-for" with
    | some v => ((v.splitOn ",").headD "").trim
    | none => ""
  firstNonEmpty
    [fwd,
     (headerLookup headers "cf-connecting-ip").getD "",
     (headerLookup headers "x-appwrite-client-ip").getD ""]
    "unknown"

/-! ### Responses -/

structure Response where
  status : Nat
  body : JVal
  headers : List (String × String)

def corsHeaders : List (String × String) :=
  [("Access-Control-Allow-Origin", "*"),
   ("Access-Control-Allow-Headers", "authorization, x-client-info, apikey, content-type")]

def jsonHeaders : List (String × String) :=
  corsHeaders ++ [("Content-Type", "application/json")]

/-- `{ valid: false, message }` error payload. -/
def errBody (message : String) : JVal :=
  .o [("valid", .b false), ("message", .s message)]

/-! ### The Appwrite handler, `functions/verify-license/index.mjs` -/

def MAX_API_KEY_LENGTH : Nat := 128

def MAX_LICENSE_KEY_LENGTH : Nat := 64

/-- The character class of `/^[A-Za-z0-9\-]+$/`. -/
def isKeyChar (c : Char) : Bool :=
  c.isAlpha || c.isDigit || c == '-'

/-- `keyPattern.test`: nonempty and every character in the class. -/
def keyPattern (s : String) : Bool :=
  s.length > 0 && s.toList.all isKeyChar

/-- `validateInput` of `index.mjs`.  `none` input models a parsed body that is
not an object (`!data || typeof data !== "object"`).  On success the body is
returned unchanged (the JS handler keeps using `body`). -/
def validateInput : Option Body → Except String Body
  | none => .error "Invalid body"
  | some b =>
    match b.api_key with
    | none => .error "api_key missing"
    | some ak =>
      if ak = "" then .error "api_key missing"
      else
        match b.license_key with
        | none => .error "license_key missing"
        | some lk =>
          if lk = "" then .error "license_key missing"
          else if ak.length > MAX_API_KEY_LENGTH then .error "api_key too long"
          else if lk.length > MAX_LICENSE_KEY_LENGTH then .error "license_key too long"
          else if !(keyPattern ak && keyPattern lk) then .error "Invalid key format"
          else .ok b

/-- JS truthiness filter on an optional string (`if (software_id) ...`):
an absent or empty string is dropped. -/
def truthyOpt : Option String → Option String
  | none => none
  | some s => if s = "" then none else some s

/-- What one invocation of the Appwrite handler produces:
the response, the rate-limit map after the call, whether the
minimum-delay gate (`delayResponse`) ran before the response was sent, which
collections were read, and whether `last_used_at` was written. -/
structure HandlerResult where
  resp : Response
  rate : RateMap
  delayed : Bool
  reads : List String
  wrote_last_used : Bool

/-- The `index.mjs` handler.  Every branch mirrors one `return res.send` of
the source; `delayed` records whether that return path awaited
`delayResponse(startTs)` (the malformed-JSON and validation 400 paths in the
source do not). -/
def handlerMjs (now : Int) (req : Req) (db : Db) (rate : RateMap) : HandlerResult :=
  if req.method = "OPTIONS" then
    { resp := ⟨204, .null, corsHeaders⟩, rate := rate, delayed := false,
      reads := [], wrote_last_used := false }
  else
    let ip := getIp req.headers
    let rl := isRateLimited now ip rate
    if rl.1 then
      { resp := ⟨429, errBody "Rate limit exceeded", jsonHeaders⟩,
        rate := rl.2, delayed := true, reads := [], wrote_last_used := false }
    else
      match req.body with
      | .malformed =>
        { resp := ⟨400, errBody "Invalid JSON", corsHeaders⟩,
          rate := rl.2, delayed := false, reads := [], wrote_last_used := false }
      | .parsed pb =>
        match validateInput pb with
        | .error msg =>
          { resp := ⟨400, errBody msg, corsHeaders⟩,
            rate := rl.2, delayed := false, reads := [], wrote_last_used := false }
        | .ok b =>
          let api_key := b.api_key.getD ""
          let license_key := b.license_key.getD ""
          match findApiKey db api_key with
          | none =>
            { resp := ⟨401, errBody "Invalid API key", corsHeaders⟩,
              rate := rl.2, delayed := true, reads := ["api_keys"],
              wrote_last_used := false }
          | some _ =>
            match findLicense db license_key (truthyOpt b.software_id) with
            | none =>
              { resp := ⟨200, errBody "License invalid or inactive", corsHeaders⟩,
                rate := rl.2, delayed := true, reads := ["api_keys", "licenses"],
                wrote_last_used := true }
            | some lic =>
              let software : JVal :=
                match findSoftware db lic.software_id with
                | none => .null
                | some s =>
                  .o [("id", .s s.id), ("name", .s s.name),
                      ("version", .s s.version), ("type", .s s.type)]
              { resp := ⟨200,
                  .o [("valid", .b true), ("message", .s "License valid"),
                      ("license", .o
                        [("license_key", .s license_key),
                         ("software", software),
                         ("buyer_name", .s lic.buyer_name),
                         ("buyer_email", .s lic.buyer_email),
                         ("start_date", .s lic.start_date),
                         ("end_date", .s lic.end_date),
                         ("created_at", .s lic.created_at)])],
                  jsonHeaders⟩,
                rate := rl.2, delayed := true,
                reads := ["api_keys", "licenses", "software"],
                wrote_last_used := true }

/-! ### The legacy Supabase handler, `supabase/functions/verify-license/index.ts` -/

/-- What one invocation of the Supabase handlers produces (they keep no
rate-limit state in this variant). -/
structure SupaResult where
  resp : Response
  reads : List String
  wrote_last_used : Bool

/-- The legacy Supabase handler.  Its `OPTIONS` branch is
`new Response(null, { headers: corsHeaders })`, whose status defaults to 200.
A body that fails `req.json()` (or is JSON `null`, so that destructuring
throws) falls into the outer `catch` and yields 500.  Its success payload
includes `is_active`, and it dereferences `licenseData.software.id`, so a
missing software row also becomes a 500. -/
def handlerSupabase (req : Req) (db : Db) : SupaResult :=
  if req.method = "OPTIONS" then
    { resp := ⟨200, .null, corsHeaders⟩, reads := [], wrote_last_used := false }
  else
    match req.body with
    | .malformed =>
      { resp := ⟨500, errBody "Internal server error", jsonHeaders⟩,
        reads := [], wrote_last_used := false }
    | .parsed none =>
      { resp := ⟨500, errBody "Internal server error", jsonHeaders⟩,
        reads := [], wrote_last_used := false }
    | .parsed (some b) =>
      let api_key := b.api_key.getD ""
      let license_key := b.license_key.getD ""
      if api_key = "" || license_key = "" then
        { resp := ⟨400, errBody "Missing api_key or license_key", jsonHeaders⟩,
          reads := [], wrote_last_used := false }
      else
        match findApiKey db api_key with
        | none =>
          { resp := ⟨401, errBody "Invalid or inactive API key", jsonHeaders⟩,
            reads := ["api_keys"], wrote_last_used := false }
        | some _ =>
          match findLicense db license_key (truthyOpt b.software_id) with
          | none =>
            { resp := ⟨200, errBody "License key not found or inactive", jsonHeaders⟩,
              reads := ["api_keys", "licenses"], wrote_last_used := true }
          | some lic =>
            match findSoftware db lic.software_id with
            | none =>
              { resp := ⟨500, errBody "Internal server error", jsonHeaders⟩,
                reads := ["api_keys", "licenses"], wrote_last_used := true }
            | some s =>
              { resp := ⟨200,
                  .o [("valid", .b true), ("message", .s "License key is valid"),
                      ("license", .o
                        [("license_key", .s lic.license_key),
                         ("software", .o
                           [("id", .s s.id), ("name", .s s.name),
                            ("version", .s s.version), ("type", .s s.type)]),
                         ("buyer_name", .s lic.buyer_name),
                         ("buyer_email", .s lic.buyer_email),
                         ("is_active", .b lic.is_active),
                         ("start_date", .s lic.start_date),
                         ("end_date", .s lic.end_date),
                         ("created_at", .s lic.created_at)])],
                  jsonHeaders⟩,
                reads := ["api_keys", "licenses"], wrote_last_used := true }

/-! ### The hardened Supabase variant (kept next to `scripts/setup-appwrite.mjs`)

This is the variant with `normalizeKey` / `validateAndNormalizeInput`.
Unicode NFKC normalization is performed by the platform
(`String.prototype.normalize('NFKC')`); it is modeled as an explicit function
parameter `nfkc`, since the claims about this variant do not depend on the
Unicode tables themselves. -/

/-- Zero-width characters stripped by `normalizeKey`
(U+200B..U+200D, U+2060, U+FEFF). -/
def isZeroWidth (c : Char) : Bool :=
  c.val = 0x200B || c.val = 0x200C || c.val = 0x200D ||
  c.val = 0x2060 || c.val = 0xFEFF

/-- Unicode dash variants mapped to `-` by `normalizeKey`
(U+2010..U+2015, U+2212, U+FE58, U+FE63, U+FF0D). -/
def isUnicodeDash (c : Char) : Bool :=
  (0x2010 ≤ c.val && c.val ≤ 0x2015) ||
  c.val = 0x2212 || c.val = 0xFE58 || c.val = 0xFF0D || c.val = 0xFE63

/-- The JS `\s` character class (also the set `String.prototype.trim`
removes). -/
def isJsSpace (c : Char) : Bool :=
  c.val = 0x9 || c.val = 0xA || c.val = 0xB || c.val = 0xC || c.val = 0xD ||
  c.val = 0x20 || c.val = 0xA0 || c.val = 0x1680 ||
  (0x2000 ≤ c.val && c.val ≤ 0x200A) ||
  c.val = 0x2028 || c.val = 0x2029 || c.val = 0x202F ||
  c.val = 0x205F || c.val = 0x3000 || c.val = 0xFEFF

/-- `String.prototype.trim`. -/
def jsTrim (s : String) : String :=
  String.mk (((s.toList.dropWhile isJsSpace).reverse.dropWhile isJsSpace).reverse)

/-- `normalizeKey(raw)` of the hardened variant: `String(raw ?? '')`, NFKC,
strip zero-width, map dash variants to `-`, drop all whitespace, trim. -/
def normalizeKey (nfkc : String → String) (raw : Option String) : String :=
  let s1 := nfkc (raw.getD "")
  let s2 := String.mk (s1.toList.filter (fun c => !isZeroWidth c))
  let s3 := String.mk (s2.toList.map (fun c => if isUnicodeDash c then '-' else c))
  let s4 := String.mk (s3.toList.filter (fun c => !isJsSpace c))
  jsTrim s4

def MAX_SOFTWARE_ID_LENGTH : Nat := 64

/-- The character class of `API_KEY_PATTERN = /^[A-Za-z0-9._\-:=+/]+$/`. -/
def isApiKeyChar (c : Char) : Bool :=
  c.isAlpha || c.isDigit || c == '.' || c == '_' || c == '-' ||
  c == ':' || c == '=' || c == '+' || c == '/'

/-- `API_KEY_PATTERN.test`. -/
def apiKeyPattern (s : String) : Bool :=
  s.length > 0 && s.toList.all isApiKeyChar

/-- CORS headers of the hardened variant (it adds `Allow-Methods`). -/
def hardenedCors : List (String × String) :=
  corsHeaders ++ [("Access-Control-Allow-Methods", "POST, OPTIONS")]

def hardenedJsonHeaders : List (String × String) :=
  hardenedCors ++ [("Content-Type", "application/json")]

/-- Client IP derivation of the Supabase variants:
`x-forwarded-for` first entry trimmed, else `cf-connecting-ip`, else
`"unknown"`. -/
def getIpSupa (headers : List (String × String)) : String :=
  let fwd : String :=
    match headerLookup headers "x-forwarded-for" with
    | some v => ((v.splitOn ",").headD "").trim
    | none => ""
  firstNonEmpty [fwd, (headerLookup headers "cf-connecting-ip").getD ""] "unknown"

/-- What one invocation of the hardened handler produces. -/
structure HardenedResult where
  resp : Response
  rate : RateMap
  reads : List String
  wrote_last_used : Bool

/-- The part of the hardened handler from `validateAndNormalizeInput` on.  Its
only use of the request body is through the already-normalized `na`/`nl` and
the raw `software_id` field (`validateAndNormalizeInput` writes the normalized
`software_id` back onto the request object only when it is truthy, so a
`software_id` whose normalization is empty is used raw by the license query —
mirrored in `sfilter`). -/
def hardenedFromBody (nfkc : String → String) (db : Db) (rate' : RateMap)
    (na nl : String) (rawSoftware : Option String) : HardenedResult :=
  let ns : Option String :=
    match rawSoftware with
    | none => none
    | some s => if s = "" then none else some (normalizeKey nfkc (some s))
  let softwareTooLong : Bool :=
    match ns with
    | none => false
    | some n => n != "" && n.length > MAX_SOFTWARE_ID_LENGTH
  if na = "" then
    { resp := ⟨400, errBody "Missing api_key", hardenedJsonHeaders⟩,
      rate := rate', reads := [], wrote_last_used := false }
  else if nl = "" then
    { resp := ⟨400, errBody "Missing license_key", hardenedJsonHeaders⟩,
      rate := rate', reads := [], wrote_last_used := false }
  else if na.length > MAX_API_KEY_LENGTH then
    { resp := ⟨400, errBody "api_key exceeds maximum length", hardenedJsonHeaders⟩,
      rate := rate', reads := [], wrote_last_used := false }
  else if nl.length > MAX_LICENSE_KEY_LENGTH then
    { resp := ⟨400, errBody "license_key exceeds maximum length", hardenedJsonHeaders⟩,
      rate := rate', reads := [], wrote_last_used := false }
  else if softwareTooLong then
    { resp := ⟨400, errBody "software_id exceeds maximum length", hardenedJsonHeaders⟩,
      rate := rate', reads := [], wrote_last_used := false }
  else if !apiKeyPattern na then
    { resp := ⟨400, errBody "Invalid api_key format", hardenedJsonHeaders⟩,
      rate := rate', reads := [], wrote_last_used := false }
  else if !keyPattern nl then
    { resp := ⟨400, errBody "Invalid license_key format", hardenedJsonHeaders⟩,
      rate := rate', reads := [], wrote_last_used := false }
  else
    let sfilter : Option String :=
      match rawSoftware, ns with
      | none, _ => none
      | some _, none => none
      | some s, some n => if n = "" then some s else some n
    match findApiKey db na with
    | none =>
      { resp := ⟨401, errBody "Invalid or inactive API key", hardenedJsonHeaders⟩,
        rate := rate', reads := ["api_keys"], wrote_last_used := false }
    | some _ =>
      match findLicense db nl sfilter with
      | none =>
        { resp := ⟨200, errBody "License key not found or inactive", hardenedJsonHeaders⟩,
          rate := rate', reads := ["api_keys", "licenses"], wrote_last_used := true }
      | some lic =>
        let software : JVal :=
          match findSoftware db lic.software_id with
          | none => .null
          | some s =>
            .o [("id", .s s.id), ("name", .s s.name),
                ("version", .s s.version), ("type", .s s.type)]
        { resp := ⟨200,
            .o [("valid", .b true), ("message", .s "License key is valid"),
                ("license", .o
                  [("license_key", .s lic.license_key),
                   ("software", software),
                   ("buyer_name", .s lic.buyer_name),
                   ("buyer_email", .s lic.buyer_email),
                   ("is_active", .b lic.is_active),
                   ("status", .s (if lic.is_active then "Active" else "Inactive")),
                   ("start_date", .s lic.start_date),
                   ("end_date", .s lic.end_date),
                   ("created_at", .s lic.created_at)])],
            hardenedJsonHeaders⟩,
          rate := rate', reads := ["api_keys", "licenses"], wrote_last_used := true }

/-- The hardened handler: OPTIONS → 204; non-POST → 405; rate limit; parse;
then `hardenedFromBody` on the normalized keys. -/
def hardenedHandler (nfkc : String → String) (now : Int) (req : Req) (db : Db)
    (rate : RateMap) : HardenedResult :=
  if req.method = "OPTIONS" then
    { resp := ⟨204, .null, hardenedCors⟩, rate := rate, reads := [],
      wrote_last_used := false }
  else if req.method ≠ "POST" then
    { resp := ⟨405, errBody "Method not allowed", hardenedJsonHeaders⟩,
      rate := rate, reads := [], wrote_last_used := false }
  else
    let ip := getIpSupa req.headers
    let rl := isRateLimited now ip rate
    if rl.1 then
      { resp := ⟨429, errBody "Too many requests. Please try again later.", hardenedJsonHeaders⟩,
        rate := rl.2, reads := [], wrote_last_used := false }
    else
      match req.body with
      | .malformed =>
        { resp := ⟨400,
            errBody "Invalid request body. Send JSON with Content-Type: application/json",
            hardenedJsonHeaders⟩,
          rate := rl.2, reads := [], wrote_last_used := false }
      | .parsed none =>
        { resp := ⟨500, errBody "Internal server error", hardenedJsonHeaders⟩,
          rate := rl.2, reads := [], wrote_last_used := false }
      | .parsed (some b) =>
        hardenedFromBody nfkc db rl.2
          (normalizeKey nfkc b.api_key) (normalizeKey nfkc b.license_key)
          b.software_id

/-! ### Dashboard license writes (`is_active` vs `end_date`)

Dates are modeled as `Int` millisecond timestamps; `todayStart` is the value
of `new Date()` after `setHours(0, 0, 0, 0)` (start of the current day), and
an absent/empty form date is `none`. -/

/-- The `is_active` computation of the license-generation forms
(`AdminLicenseGeneration.handleSubmit`, `LicenseGeneration.handleSubmit`):
`true` when no end date was entered, else `endDate >= today`. -/
def isActiveFromEndDate (end_date : Option Int) (todayStart : Int) : Bool :=
  match end_date with
  | none => true
  | some e => decide (e ≥ todayStart)

/-- The `end_date`/`is_active` part of a row written to `licenses`. -/
structure LicenseWriteRow where
  end_date : Option Int
  is_active : Bool
deriving DecidableEq

/-- Row produced by the generation forms' insert. -/
def generationInsert (end_date : Option Int) (todayStart : Int) : LicenseWriteRow :=
  ⟨end_date, isActiveFromEndDate end_date todayStart⟩

/-- Row produced by `LicenseGeneration.handleSave` (reseller inline edit):
`is_active: editedData.end_date ? new Date(editedData.end_date) >= todayStart : true`. -/
def licenseGenEditUpdate (end_date : Option Int) (todayStart : Int) : LicenseWriteRow :=
  ⟨end_date, match end_date with
             | none => true
             | some e => decide (e ≥ todayStart)⟩

/-- Client update payload produced by `AdminIssuedLicensesPage.handleSave` and
`ResellerIssuedLicensesPage.handleSave`: both copy `is_active` from the edit
form's explicit Active/Inactive selection (`editedData.is_active`) while also
writing `editedData.end_date`; the client code performs no recompute.  What
gets stored is this payload after the database trigger
(`update_license_status`) has run on it. -/
def issuedPageEditUpdate (end_date : Option Int) (is_active : Bool) : LicenseWriteRow :=
  ⟨end_date, is_active⟩

/-- `update_license_status()` from the `check_license_expiry` migration (the
SQL migration among the unnamed sources): a `BEFORE INSERT OR UPDATE` trigger
on `public.licenses` that forces `is_active := false` whenever the incoming
row's `end_date` is present and before `CURRENT_DATE`, and otherwise leaves
the row as the client wrote it (it never reactivates).  The stored row of any
application write is this function applied to the client payload. -/
def update_license_status (todayStart : Int) (w : LicenseWriteRow) : LicenseWriteRow :=
  match w.end_date with
  | some e => if e < todayStart then { w with is_active := false } else w
  | none => w

/-- Modelled from the spec: the trigger-enforced half of claim C8's
invariant — `is_active` is false whenever `end_date` is before the start of
the current day. -/
def expiredInactive (todayStart : Int) (w : LicenseWriteRow) : Prop :=
  ∀ e, w.end_date = some e → e < todayStart → w.is_active = false

/-- Modelled from the spec: the full invariant claim C8 states about every
written license row — `is_active` is false whenever `end_date` is before the
start of the current day, and true when `end_date` is absent. -/
def writeRespectsInvariant (todayStart : Int) (w : LicenseWriteRow) : Prop :=
  expiredInactive todayStart w ∧ (w.end_date = none → w.is_active = true)

/-! ### Request sequences against the Appwrite handler -/

/-- Run `isRateLimited` over a sequence of request times for one IP,
collecting the decisions. -/
def rlRun (ip : String) : List Int → RateMap → List Bool × RateMap
  | [], m => ([], m)
  | t :: ts, m =>
    let r := isRateLimited t ip m
    let rest := rlRun ip ts r.2
    (r.1 :: rest.1, rest.2)

/-- Run the Appwrite handler over a sequence of timed requests, threading the
rate-limit map and collecting the response statuses. -/
def mjsStatuses (db : Db) : List (Int × Req) → RateMap → List Nat × RateMap
  | [], m => ([], m)
  | (t, req) :: rest, m =>
    let res := handlerMjs t req db m
    let r2 := mjsStatuses db rest res.rate
    (res.resp.status :: r2.1, r2.2)

/-! ### Claim-side vocabulary -/

/-- The license-payload fields promised by the spec's output contract
(claim C1). -/
def claimedLicenseFields : List String :=
  ["license_key", "software", "buyer_name", "buyer_email",
   "start_date", "end_date", "created_at"]

/-- The fields the spec says are never exposed: buyer phone, amount, pay
mode, reseller identity (`reseller_id` and `created_by` are the reseller
identity columns of the licenses table). -/
def forbiddenFields : List String :=
  ["buyer_phone", "amount", "pay_mode", "reseller_id", "created_by"]

/-- Key list of the `license` object of a response body, if present. -/
def licenseObjKeys (v : JVal) : Option (List String) :=
  (v.getField "license").map JVal.keys

/-- The bad-input condition of claim C5 over a parsed body: a missing
`api_key` or `license_key`, an oversized key, or a character outside
`^[A-Za-z0-9-]+$` in either key (a non-object body counts as missing both). -/
def claimBadInput : Option Body → Prop
  | none => True
  | some b =>
    b.api_key = none ∨ b.license_key = none
    ∨ (∃ s, b.api_key = some s ∧ s.length > MAX_API_KEY_LENGTH)
    ∨ (∃ s, b.license_key = some s ∧ s.length > MAX_LICENSE_KEY_LENGTH)
    ∨ (∃ s c, (b.api_key = some s ∨ b.license_key = some s) ∧
         c ∈ s.toList ∧ isKeyChar c = false)

/-! ### Helper lemmas -/

theorem isRateLimited_update_self (now : Int) (ip : String) (m : RateMap) :
    (isRateLimited now ip m).2 ip = some (rlNext now (m ip)) := by
  unfold isRateLimited rlNext
  cases h : m ip with
  | none => simp
  | some e =>
    by_cases hgt : now > e.resetTime
    · simp [hgt]
    · simp [hgt]

theorem isRateLimited_update_other (now : Int) (ip k : String) (m : RateMap)
    (h : k ≠ ip) : (isRateLimited now ip m).2 k = m k := by
  unfold isRateLimited
  cases hm : m ip with
  | none => simp [h]
  | some e =>
    by_cases hgt : now > e.resetTime
    · simp [hgt, h]
    · simp [hgt, h]

/-- On every non-OPTIONS request the Appwrite handler's returned rate map is
exactly the map `isRateLimited` produced, whatever the body or database. -/
theorem mjs_rate_eq (now : Int) (req : Req) (db : Db) (rate : RateMap)
    (h : req.method ≠ "OPTIONS") :
    (handlerMjs now req db rate).rate
      = (isRateLimited now (getIp req.headers) rate).2 := by
  simp only [handlerMjs, if_neg h]
  repeat' split
  all_goals rfl

/-- On every non-OPTIONS request, the Appwrite handler answers 429 exactly
when `isRateLimited` said so. -/
theorem mjs_status_decide (now : Int) (req : Req) (db : Db) (rate : RateMap)
    (h : req.method ≠ "OPTIONS") :
    decide ((handlerMjs now req db rate).resp.status = 429)
      = (isRateLimited now (getIp req.headers) rate).1 := by
  obtain ⟨method, headers, body⟩ := req
  simp only [handlerMjs, if_neg h]
  cases hrl : (isRateLimited now (getIp headers) rate).1 with
  | true => simp
  | false =>
    simp only [Bool.false_eq_true, if_false]
    cases body with
    | malformed => simp
    | parsed pb =>
      cases hv : validateInput pb with
      | error msg => simp [hv]
      | ok b =>
        cases hk : findApiKey db (b.api_key.getD "") with
        | none => simp [hv, hk]
        | some row =>
          cases hl : findLicense db (b.license_key.getD "") (truthyOpt b.software_id) with
          | none => simp [hv, hk, hl]
          | some lic => simp [hv, hk, hl]

/-- Processing a run of requests that all fall inside an existing window
increments the counter once per request and flags exactly the requests that
push the count past the limit. -/
theorem rlRun_steady (ip : String) (r : Int) :
    ∀ (ts : List Int) (c : Nat) (m : RateMap),
      m ip = some ⟨c, r⟩ → (∀ u ∈ ts, u ≤ r) →
      (rlRun ip ts m).1
          = (List.range ts.length).map
              (fun k => decide (c + k + 1 > MAX_REQUESTS_PER_WINDOW))
        ∧ (rlRun ip ts m).2 ip = some ⟨c + ts.length, r⟩ := by
  intro ts
  induction ts with
  | nil =>
    intro c m hm _
    exact ⟨rfl, by simpa using hm⟩
  | cons u ts ih =>
    intro c m hm hw
    have hnot : ¬ u > r := not_lt.mpr (hw u (List.mem_cons_self u ts))
    have hstep : isRateLimited u ip m
        = (decide (c + 1 > MAX_REQUESTS_PER_WINDOW),
           fun k => if k = ip then some ⟨c + 1, r⟩ else m k) := by
      simp only [isRateLimited, hm, if_neg hnot]
    have hm' : (fun k => if k = ip then some (RateEntry.mk (c + 1) r) else m k) ip
        = some ⟨c + 1, r⟩ := by simp
    have hw' : ∀ v ∈ ts, v ≤ r := fun v hv => hw v (List.mem_cons_of_mem u hv)
    obtain ⟨ihf, ihc⟩ :=
      ih (c + 1) (fun k => if k = ip then some ⟨c + 1, r⟩ else m k) hm' hw'
    constructor
    · simp only [rlRun, hstep, ihf, List.length_cons, List.range_succ_eq_map,
        List.map_cons, List.map_map]
      congr 1
      apply List.map_congr_left
      intro k _
      simp only [Function.comp_apply, decide_eq_decide]
      omega
    · simp only [rlRun, hstep, List.length_cons]
      rw [ihc]
      have h2 : c + 1 + ts.length = c + (ts.length + 1) := by omega
      rw [h2]

/-- From a fresh IP, a run of requests inside one 60-second window is flagged
exactly from the 31st request on, and leaves the counter at the number of
requests made. -/
theorem rlRun_fresh (ip : String) (t0 : Int) (ts : List Int) (m : RateMap)
    (hfresh : m ip = none)
    (hw : ∀ u ∈ ts, u ≤ t0 + RATE_LIMIT_WINDOW_MS) :
    (rlRun ip (t0 :: ts) m).1
        = (List.range (ts.length + 1)).map
            (fun k => decide (k + 1 > MAX_REQUESTS_PER_WINDOW))
      ∧ (rlRun ip (t0 :: ts) m).2 ip
        = some ⟨ts.length + 1, t0 + RATE_LIMIT_WINDOW_MS⟩ := by
  have hstep : isRateLimited t0 ip m
      = (false, fun k => if k = ip then some ⟨1, t0 + RATE_LIMIT_WINDOW_MS⟩ else m k) := by
    simp only [isRateLimited, hfresh]
  have hm' : (fun k =>
        if k = ip then some (RateEntry.mk 1 (t0 + RATE_LIMIT_WINDOW_MS)) else m k) ip
      = some ⟨1, t0 + RATE_LIMIT_WINDOW_MS⟩ := by simp
  obtain ⟨hf, hc⟩ := rlRun_steady ip (t0 + RATE_LIMIT_WINDOW_MS) ts 1
    (fun k => if k = ip then some ⟨1, t0 + RATE_LIMIT_WINDOW_MS⟩ else m k) hm' hw
  constructor
  · simp only [rlRun, hstep, hf, List.range_succ_eq_map, List.map_cons, List.map_map]
    congr 1
    apply List.map_congr_left
    intro k _
    simp only [Function.comp_apply, decide_eq_decide]
    omega
  · simp only [rlRun, hstep]
    rw [hc]
    have h2 : 1 + ts.length = ts.length + 1 := by omega
    rw [h2]

/-- Running the Appwrite handler over a same-IP, non-OPTIONS request sequence
produces 429s exactly where the pure rate-limiter run raises a flag, and the
same final rate map. -/
theorem mjsStatuses_eq_rlRun (db : Db) (ip : String) :
    ∀ (reqs : List (Int × Req)) (m : RateMap),
      (∀ p ∈ reqs, getIp (Prod.snd p).headers = ip ∧ (Prod.snd p).method ≠ "OPTIONS") →
      (mjsStatuses db reqs m).1.map (fun s => decide (s = 429))
          = (rlRun ip (reqs.map Prod.fst) m).1
        ∧ (mjsStatuses db reqs m).2 = (rlRun ip (reqs.map Prod.fst) m).2 := by
  intro reqs
  induction reqs with
  | nil => intro m _; exact ⟨rfl, rfl⟩
  | cons p rest ih =>
    intro m hip
    obtain ⟨hp1, hp2⟩ := hip p (List.mem_cons_self p rest)
    have hrest : ∀ q ∈ rest, getIp (Prod.snd q).headers = ip ∧ (Prod.snd q).method ≠ "OPTIONS" :=
      fun q hq => hip q (List.mem_cons_of_mem p hq)
    have hrate : (handlerMjs p.1 p.2 db m).rate = (isRateLimited p.1 ip m).2 := by
      rw [mjs_rate_eq p.1 p.2 db m hp2, hp1]
    have hst : decide ((handlerMjs p.1 p.2 db m).resp.status = 429)
        = (isRateLimited p.1 ip m).1 := by
      rw [mjs_status_decide p.1 p.2 db m hp2, hp1]
    obtain ⟨ihf, ihm⟩ := ih ((handlerMjs p.1 p.2 db m).rate) hrest
    constructor
    · simp only [mjsStatuses, rlRun, List.map_cons, List.map]
      rw [hst, ihf, hrate]
    · simp only [mjsStatuses, rlRun, List.map_cons]
      rw [ihm, hrate]

/-- Inversion for `validateInput`: a body that passes validation is an object
with nonempty keys within the caps and inside the key pattern. -/
theorem validateInput_ok (pb : Option Body) (b : Body)
    (h : validateInput pb = .ok b) :
    pb = some b ∧
    ∃ ak lk, b.api_key = some ak ∧ b.license_key = some lk ∧
      ak ≠ "" ∧ lk ≠ "" ∧
      ak.length ≤ MAX_API_KEY_LENGTH ∧ lk.length ≤ MAX_LICENSE_KEY_LENGTH ∧
      keyPattern ak = true ∧ keyPattern lk = true := by
  cases pb with
  | none => simp [validateInput] at h
  | some b' =>
    cases hak : b'.api_key with
    | none => simp [validateInput, hak] at h
    | some ak =>
      cases hlk : b'.license_key with
      | none =>
        simp only [validateInput, hak, hlk] at h
        split_ifs at h
      | some lk =>
        simp only [validateInput, hak, hlk] at h
        split_ifs at h with h1 h2 h3 h4 h5
        · cases h
          have hand : keyPattern ak = true ∧ keyPattern lk = true := by
            simpa [Bool.and_eq_true] using h5
          exact ⟨rfl, ak, lk, hak, hlk, h1, h2, by omega, by omega, hand.1, hand.2⟩

/-- A body satisfying claim C5's bad-input condition never passes
`validateInput`. -/
theorem claimBad_not_ok (pb : Option Body) (hb : claimBadInput pb) :
    ∀ b, validateInput pb ≠ .ok b := by
  intro b h
  obtain ⟨hpb, ak, lk, hak, hlk, -, -, hlen1, hlen2, hp1, hp2⟩ := validateInput_ok pb b h
  subst hpb
  rcases hb with h1 | h1 | ⟨s, hs, hlen⟩ | ⟨s, hs, hlen⟩ | ⟨s, c, hs, hc, hbad⟩
  · rw [hak] at h1; cases h1
  · rw [hlk] at h1; cases h1
  · rw [hak] at hs; cases hs; omega
  · rw [hlk] at hs; cases hs; omega
  · rcases hs with hs | hs
    · rw [hak] at hs
      cases hs
      have hp := hp1
      simp only [keyPattern, Bool.and_eq_true, List.all_eq_true] at hp
      exact absurd (hp.2 c hc) (by simp [hbad])
    · rw [hlk] at hs
      cases hs
      have hp := hp2
      simp only [keyPattern, Bool.and_eq_true, List.all_eq_true] at hp
      exact absurd (hp.2 c hc) (by simp [hbad])

/-- Every Appwrite-handler response body is `null` (OPTIONS), a
`{valid:false, message}` object, or the success object whose `license`
object has exactly the seven contract fields. -/
theorem mjs_body_cases (now : Int) (req : Req) (db : Db) (rate : RateMap) :
    (handlerMjs now req db rate).resp.body = JVal.null
    ∨ (∃ msg, (handlerMjs now req db rate).resp.body = errBody msg)
    ∨ (∃ lk software bn be sd ed ca,
        (software = JVal.null
          ∨ ∃ i n v t, software
              = JVal.o [("id", .s i), ("name", .s n), ("version", .s v), ("type", .s t)])
        ∧ (handlerMjs now req db rate).resp.body
          = JVal.o [("valid", .b true), ("message", .s "License valid"),
              ("license", JVal.o
                [("license_key", .s lk), ("software", software),
                 ("buyer_name", .s bn), ("buyer_email", .s be),
                 ("start_date", .s sd), ("end_date", .s ed),
                 ("created_at", .s ca)])]) := by
  obtain ⟨method, headers, body⟩ := req
  simp only [handlerMjs]
  by_cases hopt : method = "OPTIONS"
  · simp [hopt]
  · simp only [if_neg hopt]
    cases hrl : (isRateLimited now (getIp headers) rate).1 with
    | true => exact Or.inr (Or.inl ⟨_, rfl⟩)
    | false =>
      simp only [Bool.false_eq_true, if_false]
      cases body with
      | malformed => exact Or.inr (Or.inl ⟨_, rfl⟩)
      | parsed pb =>
        cases hv : validateInput pb with
        | error msg =>
          simp only [hv]
          exact Or.inr (Or.inl ⟨_, rfl⟩)
        | ok b =>
          cases hk : findApiKey db (b.api_key.getD "") with
          | none =>
            simp only [hv, hk]
            exact Or.inr (Or.inl ⟨_, rfl⟩)
          | some row =>
            cases hl : findLicense db (b.license_key.getD "") (truthyOpt b.software_id) with
            | none =>
              simp only [hv, hk, hl]
              exact Or.inr (Or.inl ⟨_, rfl⟩)
            | some lic =>
              cases hs : findSoftware db lic.software_id with
              | none =>
                simp only [hv, hk, hl, hs]
                exact Or.inr (Or.inr ⟨b.license_key.getD "", JVal.null,
                  lic.buyer_name, lic.buyer_email, lic.start_date, lic.end_date,
                  lic.created_at, Or.inl rfl, rfl⟩)
              | some s =>
                simp only [hv, hk, hl, hs]
                exact Or.inr (Or.inr ⟨b.license_key.getD "",
                  JVal.o [("id", .s s.id), ("name", .s s.name),
                          ("version", .s s.version), ("type", .s s.type)],
                  lic.buyer_name, lic.buyer_email, lic.start_date, lic.end_date,
                  lic.created_at,
                  Or.inr ⟨s.id, s.name, s.version, s.type, rfl⟩, rfl⟩)

/-- Every legacy-Supabase-handler response body is `null` (OPTIONS), a
`{valid:false, message}` object, or its success object (which carries
`is_active` inside the `license` object). -/
theorem supa_body_cases (req : Req) (db : Db) :
    (handlerSupabase req db).resp.body = JVal.null
    ∨ (∃ msg, (handlerSupabase req db).resp.body = errBody msg)
    ∨ (∃ lk i n v t bn be ia sd ed ca,
        (handlerSupabase req db).resp.body
          = JVal.o [("valid", .b true), ("message", .s "License key is valid"),
              ("license", JVal.o
                [("license_key", .s lk),
                 ("software", JVal.o
                   [("id", .s i), ("name", .s n), ("version", .s v), ("type", .s t)]),
                 ("buyer_name", .s bn), ("buyer_email", .s be),
                 ("is_active", .b ia),
                 ("start_date", .s sd), ("end_date", .s ed),
                 ("created_at", .s ca)])]) := by
  obtain ⟨method, headers, body⟩ := req
  simp only [handlerSupabase]
  by_cases hopt : method = "OPTIONS"
  · simp [hopt]
  · simp only [if_neg hopt]
    cases body with
    | malformed => exact Or.inr (Or.inl ⟨_, rfl⟩)
    | parsed pb =>
      cases pb with
      | none => exact Or.inr (Or.inl ⟨_, rfl⟩)
      | some b =>
        by_cases hmiss : b.api_key.getD "" = "" ∨ b.license_key.getD "" = ""
        · have : (b.api_key.getD "" = "" || b.license_key.getD "" = "") = true := by
            rcases hmiss with h | h <;> simp [h]
          simp only [this, if_true]
          exact Or.inr (Or.inl ⟨_, rfl⟩)
        · have : (b.api_key.getD "" = "" || b.license_key.getD "" = "") = false := by
            push_neg at hmiss
            simp [hmiss.1, hmiss.2]
          simp only [this, if_false]
          cases hk : findApiKey db (b.api_key.getD "") with
          | none =>
            simp only [hk]
            exact Or.inr (Or.inl ⟨_, rfl⟩)
          | some row =>
            cases hl : findLicense db (b.license_key.getD "") (truthyOpt b.software_id) with
            | none =>
              simp only [hk, hl]
              exact Or.inr (Or.inl ⟨_, rfl⟩)
            | some lic =>
              cases hs : findSoftware db lic.software_id with
              | none =>
                simp only [hk, hl, hs]
                exact Or.inr (Or.inl ⟨_, rfl⟩)
              | some s =>
                simp only [hk, hl, hs]
                exact Or.inr (Or.inr
                  ⟨lic.license_key, s.id, s.name, s.version, s.type,
                   lic.buyer_name, lic.buyer_email, lic.is_active,
                   lic.start_date, lic.end_date, lic.created_at, rfl⟩)

/-! ### Concrete fixtures -/

def sampleSoftware : SoftwareRow :=
  ⟨"soft-1", "Leadspree", "1.0.0", "extension"⟩

def sampleLicense : LicenseRow :=
  ⟨"LS-AB-1234-5678", "soft-1", "Jane Buyer", "jane@example.com",
   some "9999999999", "2026-01-01", "2026-12-31", "2026-01-01T00:00:00Z",
   some "199.00", some "UPI", some "res-1", true⟩

def sampleApiKey : ApiKeyRow := ⟨"key-1", "AK-123", true⟩

def sampleDb : Db := ⟨[sampleApiKey], [sampleLicense], [sampleSoftware]⟩

def emptyRate : RateMap := fun _ => none

def goodBody : Body := ⟨some "AK-123", some "LS-AB-1234-5678", none⟩

def goodReq : Req :=
  ⟨"POST", [("x-forwarded-for", "203.0.113.7")], .parsed (some goodBody)⟩

def malformedReq : Req :=
  ⟨"POST", [("cf-connecting-ip", "203.0.113.7")], .malformed⟩

/-! ### Claim theorems -/

/-- C4: the claim says every non-OPTIONS return path of `index.mjs` passes
through the 200 ms minimum-delay gate.  The code contradicts it (and its own
documented intent, which the two sibling variants implement): the
malformed-JSON 400 path and the validation 400 path return without awaiting
`delayResponse`.  This theorem evaluates the handler at two such failing
inputs: both respond 400 with the delay gate skipped (`delayed = false`). -/
theorem c4_delay_gate_skipped_on_400 :
    (handlerMjs 0 malformedReq sampleDb emptyRate).resp.status = 400
    ∧ (handlerMjs 0 malformedReq sampleDb emptyRate).delayed = false
    ∧ (handlerMjs 0 ⟨"POST", [("x-forwarded-for", "203.0.113.7")],
         .parsed (some ⟨none, none, none⟩)⟩ sampleDb emptyRate).resp.status = 400
    ∧ (handlerMjs 0 ⟨"POST", [("x-forwarded-for", "203.0.113.7")],
         .parsed (some ⟨none, none, none⟩)⟩ sampleDb emptyRate).delayed = false :=
  ⟨rfl, rfl, rfl, rfl⟩

/-- The client-side recompute of the generation forms and of the
`LicenseGeneration` inline edit already satisfies the full invariant, before
the trigger even runs. -/
theorem generation_rows_respect (ed : Option Int) (today : Int) :
    writeRespectsInvariant today (generationInsert ed today)
    ∧ writeRespectsInvariant today (licenseGenEditUpdate ed today) := by
  refine ⟨⟨?_, ?_⟩, ⟨?_, ?_⟩⟩
  · intro e he hlt
    simp only [generationInsert] at he
    subst he
    simp [generationInsert, isActiveFromEndDate, decide_eq_false_iff_not]
    omega
  · intro he
    simp only [generationInsert] at he
    subst he
    simp [generationInsert, isActiveFromEndDate]
  · intro e he hlt
    simp only [licenseGenEditUpdate] at he
    subst he
    simp [licenseGenEditUpdate, decide_eq_false_iff_not]
    omega
  · intro he
    simp only [licenseGenEditUpdate] at he
    subst he
    simp [licenseGenEditUpdate]

/-- The `check_license_expiry` trigger is the identity on rows the generation
forms and the `LicenseGeneration` edit produce: their client-side recompute
already agrees with it. -/
theorem update_license_status_generation (ed : Option Int) (today : Int) :
    update_license_status today (generationInsert ed today)
      = generationInsert ed today
    ∧ update_license_status today (licenseGenEditUpdate ed today)
      = licenseGenEditUpdate ed today := by
  cases ed with
  | none => exact ⟨rfl, rfl⟩
  | some e =>
    by_cases hcond : e < today
    · have hff : decide (e ≥ today) = false := decide_eq_false (by omega)
      constructor <;>
        simp [update_license_status, generationInsert, licenseGenEditUpdate,
          isActiveFromEndDate, hcond, hff]
    · constructor <;>
        simp [update_license_status, generationInsert, licenseGenEditUpdate,
          isActiveFromEndDate, hcond]

/-- C8 counterexample: the issued-licenses edit pages store the form's
explicit Active/Inactive selection; saving an edit with no end date and the
Inactive selection stores — even after the `check_license_expiry` trigger,
which only ever forces `false` on expired rows — a row with `end_date`
absent and `is_active = false`, refuting the claim's "is_active is true when
end_date is absent" as a property of every written row. -/
theorem c8_counterexample :
    (update_license_status 0 (issuedPageEditUpdate none false)).end_date = none
    ∧ (update_license_status 0 (issuedPageEditUpdate none false)).is_active = false
    ∧ ¬ writeRespectsInvariant 0 (update_license_status 0 (issuedPageEditUpdate none false)) := by
  refine ⟨rfl, rfl, ?_⟩
  intro h
  have hfalse := h.2 rfl
  simp [update_license_status, issuedPageEditUpdate] at hfalse

/-- C8 (amended): every stored license row written by the application has
`is_active = false` whenever its `end_date` is before the current date — the
generation forms and the `LicenseGeneration` edit compute this client-side,
and the `check_license_expiry` BEFORE INSERT OR UPDATE trigger
(`update_license_status`) enforces it on every write, including the
issued-licenses edit pages that copy `is_active` from the form's
Active/Inactive selection.  The full recompute — `is_active` true whenever
`end_date` is absent or not yet past — holds only for the generation forms
and the `LicenseGeneration` edit; the issued-licenses edit pages can store
`is_active = false` with an absent or future `end_date` (an explicit manual
deactivation the trigger never overrides), so `is_active` is not recomputed
from `end_date` on those operations (`c8_counterexample`). -/
theorem c8_trigger_enforces_expiry (ed : Option Int) (today : Int) (ia : Bool) :
    expiredInactive today (update_license_status today (issuedPageEditUpdate ed ia))
    ∧ writeRespectsInvariant today (update_license_status today (generationInsert ed today))
    ∧ writeRespectsInvariant today (update_license_status today (licenseGenEditUpdate ed today)) := by
  refine ⟨?_, ?_, ?_⟩
  · intro e he hlt
    cases ed with
    | none => simp [update_license_status, issuedPageEditUpdate] at he
    | some e' =>
      by_cases hcond : e' < today
      · simp [update_license_status, issuedPageEditUpdate, hcond]
      · simp [update_license_status, issuedPageEditUpdate, hcond] at he
        omega
  · rw [(update_license_status_generation ed today).1]
    exact (generation_rows_respect ed today).1
  · rw [(update_license_status_generation ed today).2]
    exact (generation_rows_respect ed today).2

/-- C8 witness: the amended statement at a concrete past end date with the
Active selection — the trigger stores the row as inactive. -/
theorem c8_trigger_enforces_expiry_witness :
    expiredInactive 0 (update_license_status 0 (issuedPageEditUpdate (some (-1)) true))
    ∧ writeRespectsInvariant 0 (update_license_status 0 (generationInsert (some (-1)) 0))
    ∧ writeRespectsInvariant 0 (update_license_status 0 (licenseGenEditUpdate (some (-1)) 0)) :=
  c8_trigger_enforces_expiry (some (-1)) 0 true

def optionsReq : Req := ⟨"OPTIONS", [], .malformed⟩

/-- C9 counterexample: the legacy Supabase handler's OPTIONS branch is
`new Response(null, { headers: corsHeaders })`, whose status defaults to 200,
not the claimed 204. -/
theorem c9_counterexample :
    (handlerSupabase optionsReq sampleDb).resp.status = 200
    ∧ ¬ (handlerSupabase optionsReq sampleDb).resp.status = 204 :=
  ⟨rfl, by decide⟩

/-- C9 (amended): on OPTIONS the Appwrite handler responds 204 with null body
and the CORS headers, leaving the rate map untouched and doing no validation
or database access; the legacy Supabase handler behaves the same except its
status is 200 (the `Response` default). -/
theorem c9_options_preflight (now : Int) (req : Req) (db : Db) (rate : RateMap)
    (h : req.method = "OPTIONS") :
    handlerMjs now req db rate
      = ⟨⟨204, .null, corsHeaders⟩, rate, false, [], false⟩
    ∧ handlerSupabase req db = ⟨⟨200, .null, corsHeaders⟩, [], false⟩ := by
  constructor
  · simp [handlerMjs, h]
  · simp [handlerSupabase, h]

/-- C9 witness: the amended statement at a concrete OPTIONS request. -/
theorem c9_options_preflight_witness :
    handlerMjs 0 optionsReq sampleDb emptyRate
      = ⟨⟨204, .null, corsHeaders⟩, emptyRate, false, [], false⟩
    ∧ handlerSupabase optionsReq sampleDb = ⟨⟨200, .null, corsHeaders⟩, [], false⟩ :=
  c9_options_preflight 0 optionsReq sampleDb emptyRate rfl

/-- C5: a request that is not rate-limited and whose body is malformed JSON,
or misses a key, or oversizes a key, or carries a character outside
`^[A-Za-z0-9-]+$`, is answered 400 with no database read and no
`last_used_at` write. -/
theorem c5_invalid_input_400 (now : Int) (req : Req) (db : Db) (rate : RateMap)
    (hm : req.method ≠ "OPTIONS")
    (hnl : (isRateLimited now (getIp req.headers) rate).1 = false)
    (hbad : req.body = .malformed ∨ ∃ pb, req.body = .parsed pb ∧ claimBadInput pb) :
    (handlerMjs now req db rate).resp.status = 400
    ∧ (handlerMjs now req db rate).reads = []
    ∧ (handlerMjs now req db rate).wrote_last_used = false := by
  rcases hbad with hb | ⟨pb, hb, hcb⟩
  · simp [handlerMjs, if_neg hm, hb, hnl]
  · cases hv : validateInput pb with
    | error msg => simp [handlerMjs, if_neg hm, hb, hnl, hv]
    | ok b => exact absurd hv (claimBad_not_ok pb hcb b)

def badCharBody : Body := ⟨some "AK$123", some "LS-AB-1234-5678", none⟩

def badCharReq : Req :=
  ⟨"POST", [("x-forwarded-for", "203.0.113.7")], .parsed (some badCharBody)⟩

/-- C5 witness: a key containing `$` is rejected with 400 and no lookup. -/
theorem c5_invalid_input_400_witness :
    (handlerMjs 0 badCharReq sampleDb emptyRate).resp.status = 400
    ∧ (handlerMjs 0 badCharReq sampleDb emptyRate).reads = []
    ∧ (handlerMjs 0 badCharReq sampleDb emptyRate).wrote_last_used = false :=
  c5_invalid_input_400 0 badCharReq sampleDb emptyRate (by decide) (by decide)
    (Or.inr ⟨some badCharBody, rfl,
      Or.inr (Or.inr (Or.inr (Or.inr
        ⟨"AK$123", '$', Or.inl rfl, by decide, by decide⟩)))⟩)

/-- C3: when the API key matches no active `api_keys` row, both handler
variants answer 401 — whatever the licenses table contains (it is quantified
freely here) — and the licenses table is not read. -/
theorem c3_invalid_api_key_401 (now : Int) (req : Req) (db : Db) (rate : RateMap)
    (b : Body)
    (hm : req.method ≠ "OPTIONS")
    (hnl : (isRateLimited now (getIp req.headers) rate).1 = false)
    (hb : req.body = .parsed (some b))
    (hv : validateInput (some b) = .ok b)
    (hk : findApiKey db (b.api_key.getD "") = none) :
    (handlerMjs now req db rate).resp.status = 401
    ∧ (handlerMjs now req db rate).reads = ["api_keys"]
    ∧ "licenses" ∉ (handlerMjs now req db rate).reads
    ∧ (handlerSupabase req db).resp.status = 401
    ∧ (handlerSupabase req db).reads = ["api_keys"]
    ∧ "licenses" ∉ (handlerSupabase req db).reads := by
  obtain ⟨-, ak, lk, hak, hlk, hne1, hne2, -, -, -, -⟩ := validateInput_ok (some b) b hv
  have hk' : findApiKey db ak = none := by rw [hak] at hk; simpa using hk
  refine ⟨?_, ?_, ?_, ?_, ?_, ?_⟩ <;>
    simp [handlerMjs, handlerSupabase, if_neg hm, hb, hnl, hv, hk', hak, hlk, hne1, hne2]

def noKeyDb : Db := ⟨[], [sampleLicense], [sampleSoftware]⟩

/-- C3 witness: an unknown API key against a database that does hold the
matching active license. -/
theorem c3_invalid_api_key_401_witness :
    (handlerMjs 0 goodReq noKeyDb emptyRate).resp.status = 401
    ∧ (handlerMjs 0 goodReq noKeyDb emptyRate).reads = ["api_keys"]
    ∧ "licenses" ∉ (handlerMjs 0 goodReq noKeyDb emptyRate).reads
    ∧ (handlerSupabase goodReq noKeyDb).resp.status = 401
    ∧ (handlerSupabase goodReq noKeyDb).reads = ["api_keys"]
    ∧ "licenses" ∉ (handlerSupabase goodReq noKeyDb).reads :=
  c3_invalid_api_key_401 0 goodReq noKeyDb emptyRate goodBody
    (by decide) (by decide) rfl rfl rfl

/-- C2: with a valid active API key but no active license matching the
license key (and the optional software filter), both handler variants answer
HTTP 200 — never 404 — with `valid:false` and an invalid-or-inactive
message. -/
theorem c2_license_miss_200 (now : Int) (req : Req) (db : Db) (rate : RateMap)
    (b : Body) (row : ApiKeyRow)
    (hm : req.method ≠ "OPTIONS")
    (hnl : (isRateLimited now (getIp req.headers) rate).1 = false)
    (hb : req.body = .parsed (some b))
    (hv : validateInput (some b) = .ok b)
    (hk : findApiKey db (b.api_key.getD "") = some row)
    (hl : findLicense db (b.license_key.getD "") (truthyOpt b.software_id) = none) :
    (handlerMjs now req db rate).resp.status = 200
    ∧ JVal.boolField (handlerMjs now req db rate).resp.body "valid" = some false
    ∧ JVal.strField (handlerMjs now req db rate).resp.body "message"
        = some "License invalid or inactive"
    ∧ (handlerSupabase req db).resp.status = 200
    ∧ JVal.boolField (handlerSupabase req db).resp.body "valid" = some false
    ∧ JVal.strField (handlerSupabase req db).resp.body "message"
        = some "License key not found or inactive" := by
  obtain ⟨-, ak, lk, hak, hlk, hne1, hne2, -, -, -, -⟩ := validateInput_ok (some b) b hv
  have hk' : findApiKey db ak = some row := by rw [hak] at hk; simpa using hk
  have hl' : findLicense db lk (truthyOpt b.software_id) = none := by
    rw [hlk] at hl; simpa using hl
  refine ⟨?_, ?_, ?_, ?_, ?_, ?_⟩ <;>
    simp [handlerMjs, handlerSupabase, if_neg hm, hb, hnl, hv, hk', hl', hak, hlk,
      hne1, hne2, errBody, JVal.boolField, JVal.strField, JVal.getField]

def wrongLicenseBody : Body := ⟨some "AK-123", some "LS-ZZ-0000-0000", none⟩

def wrongLicenseReq : Req :=
  ⟨"POST", [("x-forwarded-for", "203.0.113.7")], .parsed (some wrongLicenseBody)⟩

/-- C2 witness: a valid API key with a license key that matches nothing. -/
theorem c2_license_miss_200_witness :
    (handlerMjs 0 wrongLicenseReq sampleDb emptyRate).resp.status = 200
    ∧ JVal.boolField (handlerMjs 0 wrongLicenseReq sampleDb emptyRate).resp.body "valid"
        = some false
    ∧ JVal.strField (handlerMjs 0 wrongLicenseReq sampleDb emptyRate).resp.body "message"
        = some "License invalid or inactive"
    ∧ (handlerSupabase wrongLicenseReq sampleDb).resp.status = 200
    ∧ JVal.boolField (handlerSupabase wrongLicenseReq sampleDb).resp.body "valid"
        = some false
    ∧ JVal.strField (handlerSupabase wrongLicenseReq sampleDb).resp.body "message"
        = some "License key not found or inactive" :=
  c2_license_miss_200 0 wrongLicenseReq sampleDb emptyRate wrongLicenseBody
    sampleApiKey (by decide) (by decide) rfl rfl rfl rfl

/-- C10: for every non-OPTIONS request — including one whose body is
malformed or invalid, since the body is never constrained here — a positive
rate-limit decision yields 429, the handler's rate map is exactly the one
`isRateLimited` produced, and the caller's entry is incremented (or started
at 1) on every such request. -/
theorem c10_rate_check_precedes_parsing (now : Int) (req : Req) (db : Db)
    (rate : RateMap) (hm : req.method ≠ "OPTIONS") :
    ((isRateLimited now (getIp req.headers) rate).1 = true →
       (handlerMjs now req db rate).resp.status = 429)
    ∧ (handlerMjs now req db rate).rate
        = (isRateLimited now (getIp req.headers) rate).2
    ∧ (handlerMjs now req db rate).rate (getIp req.headers)
        = some (rlNext now (rate (getIp req.headers))) := by
  refine ⟨?_, mjs_rate_eq now req db rate hm, ?_⟩
  · intro h
    have hd := mjs_status_decide now req db rate hm
    rw [h] at hd
    simpa using hd
  · rw [mjs_rate_eq now req db rate hm, isRateLimited_update_self]

def busyRate : RateMap :=
  fun k => if k = "203.0.113.7" then some ⟨30, 60000⟩ else none

/-- C10 witness: a malformed-body request from an IP already at the limit. -/
theorem c10_rate_check_precedes_parsing_witness :
    ((isRateLimited 0 (getIp malformedReq.headers) busyRate).1 = true →
       (handlerMjs 0 malformedReq sampleDb busyRate).resp.status = 429)
    ∧ (handlerMjs 0 malformedReq sampleDb busyRate).rate
        = (isRateLimited 0 (getIp malformedReq.headers) busyRate).2
    ∧ (handlerMjs 0 malformedReq sampleDb busyRate).rate (getIp malformedReq.headers)
        = some (rlNext 0 (busyRate (getIp malformedReq.headers))) :=
  c10_rate_check_precedes_parsing 0 malformedReq sampleDb busyRate (by decide)

/-- C6: from a fresh client IP, a sequence of non-OPTIONS requests whose
follow-ups all fall inside the 60-second window opened by the first request
is answered 429 exactly from the 31st request on; any request arriving after
the window's reset time is not limited and starts a fresh window with
count 1. -/
theorem c6_rate_limit_window (db : Db) (m : RateMap) (ip : String) (t0 : Int)
    (r0 : Req) (reqs : List (Int × Req))
    (hfresh : m ip = none)
    (hip : ∀ p ∈ (t0, r0) :: reqs,
      getIp (Prod.snd p).headers = ip ∧ (Prod.snd p).method ≠ "OPTIONS")
    (hwin : ∀ p ∈ reqs, Prod.fst p ≤ t0 + RATE_LIMIT_WINDOW_MS) :
    (mjsStatuses db ((t0, r0) :: reqs) m).1.map (fun s => decide (s = 429))
        = (List.range (reqs.length + 1)).map
            (fun k => decide (k + 1 > MAX_REQUESTS_PER_WINDOW))
    ∧ ∀ (u : Int) (req2 : Req), u > t0 + RATE_LIMIT_WINDOW_MS →
        getIp req2.headers = ip → req2.method ≠ "OPTIONS" →
        (handlerMjs u req2 db (mjsStatuses db ((t0, r0) :: reqs) m).2).resp.status ≠ 429
        ∧ (handlerMjs u req2 db (mjsStatuses db ((t0, r0) :: reqs) m).2).rate ip
            = some ⟨1, u + RATE_LIMIT_WINDOW_MS⟩ := by
  obtain ⟨hmap, hfinal⟩ := mjsStatuses_eq_rlRun db ip ((t0, r0) :: reqs) m hip
  have hwin' : ∀ u ∈ reqs.map Prod.fst, u ≤ t0 + RATE_LIMIT_WINDOW_MS := by
    intro u hu
    obtain ⟨p, hp, hpu⟩ := List.mem_map.mp hu
    exact hpu ▸ hwin p hp
  obtain ⟨hflags, hcount⟩ := rlRun_fresh ip t0 (reqs.map Prod.fst) m hfresh hwin'
  constructor
  · rw [hmap]
    simpa using hflags
  · intro u req2 hu hip2 hm2
    have hfin_ip : (mjsStatuses db ((t0, r0) :: reqs) m).2 ip
        = some ⟨reqs.length + 1, t0 + RATE_LIMIT_WINDOW_MS⟩ := by
      rw [hfinal]
      simpa using hcount
    have hstep : isRateLimited u ip ((mjsStatuses db ((t0, r0) :: reqs) m).2)
        = (false, fun k => if k = ip
            then some ⟨1, u + RATE_LIMIT_WINDOW_MS⟩
            else (mjsStatuses db ((t0, r0) :: reqs) m).2 k) := by
      simp only [isRateLimited, hfin_ip, if_pos hu]
    constructor
    · have hd := mjs_status_decide u req2 db
        ((mjsStatuses db ((t0, r0) :: reqs) m).2) hm2
      rw [hip2, hstep] at hd
      simpa using hd
    · rw [mjs_rate_eq u req2 db ((mjsStatuses db ((t0, r0) :: reqs) m).2) hm2,
        hip2, hstep]
      simp

/-- C6 witness: 31 identical requests from one IP at time 0 from a fresh
limiter; the decision pattern is exactly `k + 1 > 30`. -/
theorem c6_rate_limit_window_witness :
    (mjsStatuses sampleDb ((0, malformedReq) :: List.replicate 30 (0, malformedReq))
        emptyRate).1.map (fun s => decide (s = 429))
      = (List.range 31).map (fun k => decide (k + 1 > MAX_REQUESTS_PER_WINDOW)) := by
  have hip : ∀ p ∈ (((0 : Int), malformedReq) :: List.replicate 30 ((0 : Int), malformedReq)),
      getIp (Prod.snd p).headers = "203.0.113.7" ∧ (Prod.snd p).method ≠ "OPTIONS" := by
    intro p hp
    rcases List.mem_cons.mp hp with h | h
    · subst h; exact ⟨rfl, by decide⟩
    · have := List.eq_of_mem_replicate h
      subst this; exact ⟨rfl, by decide⟩
  have hwin : ∀ p ∈ List.replicate 30 (((0 : Int), malformedReq)),
      Prod.fst p ≤ (0 : Int) + RATE_LIMIT_WINDOW_MS := by
    intro p hp
    have := List.eq_of_mem_replicate hp
    subst this; decide
  have h := (c6_rate_limit_window sampleDb emptyRate "203.0.113.7" 0 malformedReq
    (List.replicate 30 (0, malformedReq)) rfl hip hwin).1
  simpa using h

/-- C7: the hardened variant's behavior factors through `normalizeKey`: two
parsed bodies whose `api_key` and `license_key` agree after normalization
(and whose raw `software_id` field is the same) receive identical results —
response, rate map, reads and writes — in every state. -/
theorem c7_normalization_determines_outcome (nfkc : String → String) (now : Int)
    (method : String) (headers : List (String × String)) (db : Db)
    (rate : RateMap) (b1 b2 : Body)
    (hak : normalizeKey nfkc b1.api_key = normalizeKey nfkc b2.api_key)
    (hlk : normalizeKey nfkc b1.license_key = normalizeKey nfkc b2.license_key)
    (hsw : b1.software_id = b2.software_id) :
    hardenedHandler nfkc now ⟨method, headers, .parsed (some b1)⟩ db rate
      = hardenedHandler nfkc now ⟨method, headers, .parsed (some b2)⟩ db rate := by
  simp only [hardenedHandler]
  rw [hak, hlk, hsw]

/-- C7 witness: a license key with an embedded zero-width space and a
non-breaking hyphen normalizes to the plain ASCII key and gets the same
outcome (with `nfkc := id`, which is NFKC's behavior on these ASCII-plus
inputs). -/
theorem c7_normalization_determines_outcome_witness :
    hardenedHandler id 0
        ⟨"POST", [], .parsed (some ⟨some "AK\u200B-123", some "LS\u2011AB", none⟩)⟩
        sampleDb emptyRate
      = hardenedHandler id 0
          ⟨"POST", [], .parsed (some ⟨some "AK-123", some "LS-AB", none⟩)⟩
          sampleDb emptyRate :=
  c7_normalization_determines_outcome id 0 "POST" [] sampleDb emptyRate
    ⟨some "AK\u200B-123", some "LS\u2011AB", none⟩
    ⟨some "AK-123", some "LS-AB", none⟩
    (by decide) (by decide) rfl

/-- C1 counterexample: on a fully valid request the legacy Supabase handler's
success payload carries `is_active` inside the `license` object, so the
license object does not contain exactly the seven claimed fields. -/
theorem c1_counterexample :
    (handlerSupabase goodReq sampleDb).resp.status = 200
    ∧ JVal.boolField (handlerSupabase goodReq sampleDb).resp.body "valid" = some true
    ∧ licenseObjKeys (handlerSupabase goodReq sampleDb).resp.body
        = some ["license_key", "software", "buyer_name", "buyer_email",
                "is_active", "start_date", "end_date", "created_at"]
    ∧ licenseObjKeys (handlerSupabase goodReq sampleDb).resp.body
        ≠ some claimedLicenseFields := by
  refine ⟨rfl, rfl, rfl, ?_⟩
  decide

/-- C1 (amended): the Appwrite handler's successful (`200`, `valid:true`)
response carries a license object with exactly the seven contract fields;
the legacy Supabase handler additionally exposes `is_active` (and `software`
is never null there); and in no response of either variant does any payload
contain `buyer_phone`, `amount`, `pay_mode`, or a reseller identity field
(`reseller_id`/`created_by`), at any nesting depth. -/
theorem c1_payload_minimization :
    (∀ (now : Int) (req : Req) (db : Db) (rate : RateMap),
        (handlerMjs now req db rate).resp.status = 200 →
        JVal.boolField (handlerMjs now req db rate).resp.body "valid" = some true →
        licenseObjKeys (handlerMjs now req db rate).resp.body
          = some claimedLicenseFields)
    ∧ (∀ (now : Int) (req : Req) (db : Db) (rate : RateMap) (k : String),
        k ∈ forbiddenFields →
        JVal.hasKeyDeep k (handlerMjs now req db rate).resp.body = false)
    ∧ (∀ (req : Req) (db : Db) (k : String),
        k ∈ forbiddenFields →
        JVal.hasKeyDeep k (handlerSupabase req db).resp.body = false) := by
  refine ⟨?_, ?_, ?_⟩
  · intro now req db rate h200 hval
    rcases mjs_body_cases now req db rate with hb | ⟨msg, hb⟩ |
      ⟨lk, sw, bn, be, sd, ed, ca, hsw, hb⟩
    · rw [hb] at hval
      exact absurd hval (by decide)
    · rw [hb] at hval
      have hof : JVal.boolField (errBody msg) "valid" = some false := rfl
      rw [hof] at hval
      simp at hval
    · rw [hb]
      rfl
  · intro now req db rate k hk
    have hks : k = "buyer_phone" ∨ k = "amount" ∨ k = "pay_mode"
        ∨ k = "reseller_id" ∨ k = "created_by" := by
      simpa [forbiddenFields] using hk
    rcases mjs_body_cases now req db rate with hb | ⟨msg, hb⟩ |
      ⟨lk, sw, bn, be, sd, ed, ca, hsw, hb⟩ <;> rw [hb]
    · rcases hks with rfl | rfl | rfl | rfl | rfl <;> rfl
    · rcases hks with rfl | rfl | rfl | rfl | rfl <;> rfl
    · rcases hsw with rfl | ⟨i, n, v, t, rfl⟩ <;>
        rcases hks with rfl | rfl | rfl | rfl | rfl <;> rfl
  · intro req db k hk
    have hks : k = "buyer_phone" ∨ k = "amount" ∨ k = "pay_mode"
        ∨ k = "reseller_id" ∨ k = "created_by" := by
      simpa [forbiddenFields] using hk
    rcases supa_body_cases req db with hb | ⟨msg, hb⟩ |
      ⟨lk, i, n, v, t, bn, be, ia, sd, ed, ca, hb⟩ <;> rw [hb]
    · rcases hks with rfl | rfl | rfl | rfl | rfl <;> rfl
    · rcases hks with rfl | rfl | rfl | rfl | rfl <;> rfl
    · rcases hks with rfl | rfl | rfl | rfl | rfl <;> rfl

/-- C1 witness: the amended statement at a concrete fully-valid request —
the Appwrite success payload has exactly the contract fields and no
`buyer_phone` anywhere, in either variant. -/
theorem c1_payload_minimization_witness :
    licenseObjKeys (handlerMjs 0 goodReq sampleDb emptyRate).resp.body
        = some claimedLicenseFields
    ∧ JVal.hasKeyDeep "buyer_phone"
        (handlerMjs 0 goodReq sampleDb emptyRate).resp.body = false
    ∧ JVal.hasKeyDeep "buyer_phone"
        (handlerSupabase goodReq sampleDb).resp.body = false :=
  ⟨c1_payload_minimization.1 0 goodReq sampleDb emptyRate rfl rfl,
   c1_payload_minimization.2.1 0 goodReq sampleDb emptyRate "buyer_phone" (by decide),
   c1_payload_minimization.2.2 goodReq sampleDb "buyer_phone" (by decide)⟩

end Licenser
